import Mathlib

/-!
Verification of the comp8005 scalable-server benchmarking tools (TCP echo
responder and load-generating echo client) against their natural-language
specification.  The definitions below are a shallow embedding of the C++
sources: `source/epoll_clnt.cpp`, `source/epoll_svr.cpp`,
`source/select_svr.cpp` and `source/thread_svr.cpp`.  Machine integers are
modelled as `Nat` with explicit reduction modulo `2^32` (C `unsigned int`)
or `2^64` (C `unsigned long`) at the operations where the C code performs
wrapping arithmetic; C `double` service-time arithmetic is modelled over
`ℚ`.
-/

/-- Modulus of C `unsigned int` (the type of `timesTransmitted` and
`bytesReceived` in `struct client_t`, epoll_clnt.cpp:69-75). -/
def UINT_MOD : Nat := 2 ^ 32

/-- Modulus of C `unsigned long` (the type of the session counters in
epoll_clnt.cpp:47-62). -/
def ULONG_MOD : Nat := 2 ^ 64

/-- The C constant `DBL_MAX` (float.h), the initial value of
`minServiceTime` at epoll_clnt.cpp:32, as an exact rational:
DBL_MAX = (2 - 2^-52) * 2^1023 = 2^1024 - 2^971. -/
def dblMax : ℚ := ((2 ^ 1024 - 2 ^ 971 : Nat) : ℚ)

/-- The client process's statistics globals, epoll_clnt.cpp:27-62. -/
structure Stats where
  minServiceTime : ℚ
  maxServiceTime : ℚ
  avgServiceTime : ℚ
  totalSessionCount : Nat
  peakSessionCount : Nat
  sessionCount : Nat

/-- Initial values of the statistics globals (epoll_clnt.cpp:32-57):
`minServiceTime = DBL_MAX`, `maxServiceTime = 0`, `avgServiceTime = 0`,
all counters 0. -/
def initStats : Stats :=
  { minServiceTime := dblMax
    maxServiceTime := 0
    avgServiceTime := 0
    totalSessionCount := 0
    peakSessionCount := 0
    sessionCount := 0 }

/-- `increment_session_count` (epoll_clnt.cpp:84-89):
`sessionCount++; if (peakSessionCount < sessionCount) peakSessionCount =
sessionCount;` with `unsigned long` wrapping. -/
def increment_session_count (s : Stats) : Stats :=
  let sessionCount' := (s.sessionCount + 1) % ULONG_MOD
  let peakSessionCount' :=
    if s.peakSessionCount < sessionCount' then sessionCount'
    else s.peakSessionCount
  { s with sessionCount := sessionCount', peakSessionCount := peakSessionCount' }

/-- `decrement_session_count` (epoll_clnt.cpp:91-103): `sessionCount--;
totalSessionCount++;` (both `unsigned long`, wrapping), then the min/max
updates, then
`avgServiceTime = (avgServiceTime*(totalSessionCount-1)+instanceServiceTime)
/ totalSessionCount` where `totalSessionCount` has already been
incremented and `totalSessionCount-1` is again wrapping unsigned
arithmetic. -/
def decrement_session_count (instanceServiceTime : ℚ) (s : Stats) : Stats :=
  let sessionCount' := (s.sessionCount + (ULONG_MOD - 1)) % ULONG_MOD
  let totalSessionCount' := (s.totalSessionCount + 1) % ULONG_MOD
  let minServiceTime' :=
    if s.minServiceTime > instanceServiceTime then instanceServiceTime
    else s.minServiceTime
  let maxServiceTime' :=
    if s.maxServiceTime < instanceServiceTime then instanceServiceTime
    else s.maxServiceTime
  let totalServiceTime :=
    s.avgServiceTime * (((totalSessionCount' + (ULONG_MOD - 1)) % ULONG_MOD : Nat) : ℚ)
      + instanceServiceTime
  let avgServiceTime' := totalServiceTime / (totalSessionCount' : ℚ)
  { minServiceTime := minServiceTime'
    maxServiceTime := maxServiceTime'
    avgServiceTime := avgServiceTime'
    totalSessionCount := totalSessionCount'
    peakSessionCount := s.peakSessionCount
    sessionCount := sessionCount' }

/-- The responder's missing-argument guard (epoll_svr.cpp:303-304,
select_svr.cpp:303-304, thread_svr.cpp:243-244): the usage message is
printed and `EX_USAGE` returned exactly when
`!portInitialized && !numWorkerProcessesInitialized`. -/
def svrUsageAbort (portInitialized numWorkerProcessesInitialized : Bool) : Bool :=
  (!portInitialized) && (!numWorkerProcessesInitialized)

/-- The client's missing-argument guard (epoll_clnt.cpp:476-481): the usage
message is printed and `EX_USAGE` returned exactly when any of the six
required-option flags is false. -/
def clntUsageAbort (remoteNameInitialized remotePortInitialized
    numWorkerProcessesInitialized numClientsInitialized
    dataInitialized timesToRetransmitInitialized : Bool) : Bool :=
  (!remoteNameInitialized) ||
  (!remotePortInitialized) ||
  (!numWorkerProcessesInitialized) ||
  (!numClientsInitialized) ||
  (!dataInitialized) ||
  (!timesToRetransmitInitialized)

/-- Number of clients handed to worker `i` of `numWorkerProcesses` by the
client supervisor (epoll_clnt.cpp:502-516): worker 0 gets
`numClients/numWorkerProcesses + numClients%numWorkerProcesses`, every
other worker gets `numClients/numWorkerProcesses`. -/
def workerNumClients (numClients numWorkerProcesses i : Nat) : Nat :=
  if i = 0 then
    numClients / numWorkerProcesses + numClients % numWorkerProcesses
  else
    numClients / numWorkerProcesses

/-- The full partition of `numClients` across the workers, in fork order. -/
def workerAllocation (numClients numWorkerProcesses : Nat) : List Nat :=
  (List.range numWorkerProcesses).map (workerNumClients numClients numWorkerProcesses)

/-- Outcome selected by the guard chain that follows the client's read
drain loop (epoll_clnt.cpp:246-307). -/
inductive ReadOutcome where
  | retransmit : ReadOutcome
  | complete : ReadOutcome
  | awaitMore : ReadOutcome
  | unreachable : ReadOutcome
deriving DecidableEq

/-- The guard chain after the client's drain loop (epoll_clnt.cpp:246-307):
first `bytesReceived >= strlen(data) && timesTransmitted < timesToRetransmit`
(retransmit), then `bytesReceived >= strlen(data) && timesTransmitted >=
timesToRetransmit` (complete: close and recycle the slot), then
`bytesReceived < strlen(data)` (wait for more data), and otherwise
`fatal_error("should not reach this point in code!")`. -/
def readBranch (payloadLen timesToRetransmit timesTransmitted bytesReceived : Nat) :
    ReadOutcome :=
  if bytesReceived ≥ payloadLen ∧ timesTransmitted < timesToRetransmit then
    ReadOutcome.retransmit
  else if bytesReceived ≥ payloadLen ∧ timesTransmitted ≥ timesToRetransmit then
    ReadOutcome.complete
  else if bytesReceived < payloadLen then
    ReadOutcome.awaitMore
  else
    ReadOutcome.unreachable

/-- One result of a `recv` call on a socket, as the C code distinguishes
the cases: `chunk n` is `bytesRead = n > 0`; `wouldBlock` is `bytesRead =
-1` with `errno` `EWOULDBLOCK`/`EAGAIN`; `closed` is a zero-length read
(`bytesRead = 0`, peer closed); `reset` is `bytesRead = -1` with `errno ==
ECONNRESET`; `err` is `bytesRead = -1` with any other `errno`. -/
inductive RecvEvent where
  | chunk : Nat → RecvEvent
  | wouldBlock : RecvEvent
  | closed : RecvEvent
  | reset : RecvEvent
  | err : RecvEvent
deriving DecidableEq

/-- Result of the client's read drain loop: `ok b` means the loop broke out
on `EWOULDBLOCK`/`EAGAIN` with `bytesReceived = b`; `fatal` means
`fatal_error("recv")` was called, terminating the whole process with
`EX_OSERR`. -/
inductive DrainResult where
  | ok : Nat → DrainResult
  | fatal : DrainResult
deriving DecidableEq

/-- The client's read drain loop (epoll_clnt.cpp:221-244): loop over `recv`
results; a positive read adds to `bytesReceived` (`unsigned int`, so modulo
`2^32`); `EWOULDBLOCK`/`EAGAIN` breaks out of the loop; anything else — a
zero-length read or any other error — calls `fatal_error("recv")`.  `none`
means the event sequence was exhausted while the loop was still running. -/
def clientDrain : List RecvEvent → Nat → Option DrainResult
  | [], _ => none
  | RecvEvent.chunk n :: rest, acc => clientDrain rest ((acc + n) % UINT_MOD)
  | RecvEvent.wouldBlock :: _, acc => some (DrainResult.ok acc)
  | RecvEvent.closed :: _, _ => some DrainResult.fatal
  | RecvEvent.reset :: _, _ => some DrainResult.fatal
  | RecvEvent.err :: _, _ => some DrainResult.fatal

/-- The client's whole `EPOLLIN` handler: drain the socket, then run the
guard chain on the accumulated byte count (epoll_clnt.cpp:215-308).
Returns the accumulated count and the selected branch, or `none` when the
drain turned fatal or was left incomplete. -/
def readEventResult (payloadLen timesToRetransmit timesTransmitted : Nat)
    (events : List RecvEvent) (bytesReceived : Nat) : Option (Nat × ReadOutcome) :=
  match clientDrain events bytesReceived with
  | some (DrainResult.ok b) =>
      some (b, readBranch payloadLen timesToRetransmit timesTransmitted b)
  | _ => none

/-- Outcome of the read handler of the epoll/select echo servers: either
the socket stays registered (`keepOpen`, after `EWOULDBLOCK`) or it is
closed and dropped from the loop (`closeConn`), while the event loop keeps
running in both cases. -/
inductive ServerReadOutcome where
  | keepOpen : ServerReadOutcome
  | closeConn : ServerReadOutcome
deriving DecidableEq

/-- The echo servers' read-and-echo loop (epoll_svr.cpp:120-136,
select_svr.cpp:125-142): `while ((bytesRead = recv(...)) > 0)
send(fd, buf, bytesRead, 0);` then, if the loop ended with `-1` and
`EWOULDBLOCK`, keep the socket; in every other case (zero-length read,
reset, any other error) close this one socket and continue the event loop.
`echoed` accumulates the chunk sizes echoed back, in order. -/
def serverEchoLoop : List RecvEvent → List Nat → Option (ServerReadOutcome × List Nat)
  | [], _ => none
  | RecvEvent.chunk n :: rest, echoed => serverEchoLoop rest (echoed ++ [n])
  | RecvEvent.wouldBlock :: _, echoed => some (ServerReadOutcome.keepOpen, echoed)
  | RecvEvent.closed :: _, echoed => some (ServerReadOutcome.closeConn, echoed)
  | RecvEvent.reset :: _, echoed => some (ServerReadOutcome.closeConn, echoed)
  | RecvEvent.err :: _, echoed => some (ServerReadOutcome.closeConn, echoed)

/-- Outcome of the thread server's per-connection routine after its echo
loop ends: `closeThread` closes the socket and ends only that thread
(`pthread_exit`); `fatalExit` is `fatal_error("recv")`, process exit. -/
inductive ThreadReadOutcome where
  | closeThread : ThreadReadOutcome
  | fatalExit : ThreadReadOutcome
deriving DecidableEq

/-- The thread server's echo loop and its epilogue (thread_svr.cpp:129-146):
echo every positive read back; once `recv` returns `<= 0`, close the socket
and exit the thread if `bytesRead == 0 || errno == ECONNRESET`, otherwise
`fatal_error("recv")`.  The socket is blocking, so a `-1`/`EWOULDBLOCK`
result falls into the fatal branch as well. -/
def threadEchoLoop : List RecvEvent → Option ThreadReadOutcome
  | [] => none
  | RecvEvent.chunk _ :: rest => threadEchoLoop rest
  | RecvEvent.closed :: _ => some ThreadReadOutcome.closeThread
  | RecvEvent.reset :: _ => some ThreadReadOutcome.closeThread
  | RecvEvent.wouldBlock :: _ => some ThreadReadOutcome.fatalExit
  | RecvEvent.err :: _ => some ThreadReadOutcome.fatalExit

/-- The readiness interest registered for a client socket: `EPOLLOUT...`
(waiting to write) or `EPOLLIN...` (waiting to read). -/
inductive Interest where
  | writeWait : Interest
  | readWait : Interest
deriving DecidableEq

/-- A client connection slot (`struct client_t`, epoll_clnt.cpp:69-75,
without the OS handles), together with its currently registered interest
and the number of `send` calls made in the current cycle. -/
structure CycleState where
  timesTransmitted : Nat
  bytesReceived : Nat
  interest : Interest
  sent : Nat
deriving DecidableEq

/-- A slot right after creation or recycling (epoll_clnt.cpp:150-166 and
280-297): counters zeroed by `memset`, registered for `EPOLLOUT`. -/
def freshCycle : CycleState := { timesTransmitted := 0, bytesReceived := 0
                                 interest := Interest.writeWait, sent := 0 }

/-- The client's `EPOLLOUT` handler (epoll_clnt.cpp:194-212): send the full
payload, `timesTransmitted += 1` (`unsigned int`), re-register for
`EPOLLIN`. -/
def handleWritable (st : CycleState) : CycleState :=
  { timesTransmitted := (st.timesTransmitted + 1) % UINT_MOD
    bytesReceived := st.bytesReceived
    interest := Interest.readWait
    sent := st.sent + 1 }

/-- One dispatch step of the client's event loop driving a single slot
through one full cycle, with the responder echoing the whole `payloadLen`
byte payload before each read event (the scenario of the claim): on
`writeWait`, run the `EPOLLOUT` handler; on `readWait`, drain the full echo
(`bytesReceived += payloadLen`, `unsigned int`) and run the guard chain —
`retransmit` zeroes `bytesReceived` and re-registers for `EPOLLOUT`
(epoll_clnt.cpp:248-260), `complete` closes the socket and ends the cycle
reporting how many sends it took (epoll_clnt.cpp:262-299), `awaitMore`
keeps waiting for data, and the `unreachable` branch is
`fatal_error` (`none`). -/
def cycleStep (payloadLen timesToRetransmit : Nat) (st : CycleState) :
    Option (CycleState ⊕ Nat) :=
  match st.interest with
  | Interest.writeWait => some (Sum.inl (handleWritable st))
  | Interest.readWait =>
      let b := (st.bytesReceived + payloadLen) % UINT_MOD
      match readBranch payloadLen timesToRetransmit st.timesTransmitted b with
      | ReadOutcome.retransmit =>
          some (Sum.inl { st with bytesReceived := 0, interest := Interest.writeWait })
      | ReadOutcome.complete => some (Sum.inr st.sent)
      | ReadOutcome.awaitMore =>
          some (Sum.inl { st with bytesReceived := b })
      | ReadOutcome.unreachable => none

/-- Run `cycleStep` until the cycle completes, returning the number of
`send` calls the cycle performed; `none` on fuel exhaustion or a fatal
branch. -/
def cycleRun (payloadLen timesToRetransmit : Nat) : Nat → CycleState → Option Nat
  | 0, _ => none
  | fuel + 1, st =>
      match cycleStep payloadLen timesToRetransmit st with
      | none => none
      | some (Sum.inr sent) => some sent
      | some (Sum.inl st') => cycleRun payloadLen timesToRetransmit fuel st'

/-- Folding a sequence of completed-session service times into the
aggregate statistics, one `decrement_session_count` call per completed
session, as the completion branch does (epoll_clnt.cpp:264-270). -/
def foldServiceTimes (times : List ℚ) (s : Stats) : Stats :=
  times.foldl (fun s t => decrement_session_count t s) s

/-- The primitive statements making up the body of
`decrement_session_count` (epoll_clnt.cpp:93-102), as individual counter
operations. -/
inductive CounterOp where
  | decSession : CounterOp
  | incTotal : CounterOp
  | updateMin : ℚ → CounterOp
  | updateMax : ℚ → CounterOp
  | updateAvg : ℚ → CounterOp
deriving DecidableEq

/-- Effect of each primitive statement of `decrement_session_count` on the
statistics globals: `decSession` is `sessionCount--`, `incTotal` is
`totalSessionCount++`, and the three update operations are the min, max
and running-average assignments, each acting on the state left by the
preceding statements. -/
def applyCounterOp (s : Stats) : CounterOp → Stats
  | CounterOp.decSession =>
      { s with sessionCount := (s.sessionCount + (ULONG_MOD - 1)) % ULONG_MOD }
  | CounterOp.incTotal =>
      { s with totalSessionCount := (s.totalSessionCount + 1) % ULONG_MOD }
  | CounterOp.updateMin x =>
      { s with minServiceTime :=
          if s.minServiceTime > x then x else s.minServiceTime }
  | CounterOp.updateMax x =>
      { s with maxServiceTime :=
          if s.maxServiceTime < x then x else s.maxServiceTime }
  | CounterOp.updateAvg x =>
      { s with avgServiceTime :=
          (s.avgServiceTime
              * (((s.totalSessionCount + (ULONG_MOD - 1)) % ULONG_MOD : Nat) : ℚ) + x)
            / (s.totalSessionCount : ℚ) }

/-- The statement sequence of `decrement_session_count`
(epoll_clnt.cpp:93-102), in source order. -/
def decrementTrace (x : ℚ) : List CounterOp :=
  [CounterOp.decSession, CounterOp.incTotal, CounterOp.updateMin x,
   CounterOp.updateMax x, CounterOp.updateAvg x]

/-- A session-counter update: one call to `increment_session_count` or one
call to `decrement_session_count` with some service time. -/
inductive SessionOp where
  | inc : SessionOp
  | dec : ℚ → SessionOp
deriving DecidableEq

/-- Apply one session-counter update to the statistics globals. -/
def applySessionOp (s : Stats) : SessionOp → Stats
  | SessionOp.inc => increment_session_count s
  | SessionOp.dec x => decrement_session_count x s

/-- Run a sequence of session-counter updates starting from the initial
globals. -/
def runOps (ops : List SessionOp) : Stats := ops.foldl applySessionOp initStats

/-- `balancedFrom s ops` holds when every `decrement_session_count` call
in `ops` happens while `sessionCount > 0` — which is how the program
itself calls the pair: a decrement only on completion of a session
previously counted by an increment. -/
def balancedFrom : Stats → List SessionOp → Bool
  | _, [] => true
  | s, SessionOp.inc :: rest =>
      balancedFrom (applySessionOp s SessionOp.inc) rest
  | s, SessionOp.dec x :: rest =>
      decide (0 < s.sessionCount)
        && balancedFrom (applySessionOp s (SessionOp.dec x)) rest

/-- The successive values `sessionCount` takes while `ops` runs from
state `s`. -/
def sessionTrace (s : Stats) : List SessionOp → List Nat
  | [] => []
  | op :: rest =>
      (applySessionOp s op).sessionCount :: sessionTrace (applySessionOp s op) rest

/-- Maximum of a list of naturals, 0 for the empty list. -/
def maxList (l : List Nat) : Nat := l.foldr max 0

/-- The divisor of the sessions-per-second computation in
`print_statistics` (epoll_clnt.cpp:125): `totalRuntime/1000L` is an
integer (`long`) division, evaluated before the floating division of
`totalSessionCount` by it. -/
def sessionsRateDivisor (totalRuntime : Nat) : Nat := totalRuntime / 1000

/-- The bits of one epoll event's mask that the client's dispatch looks
at: `hupOrErr` is `events[i].events & (EPOLLHUP|EPOLLERR)` being nonzero,
`pollout` is the `EPOLLOUT` bit, `pollin` the `EPOLLIN` bit. -/
structure EpollEvents where
  hupOrErr : Bool
  pollout : Bool
  pollin : Bool

/-- What the client's event loop does with one reported event
(epoll_clnt.cpp:181-308): `closeConn` is the `EPOLLHUP|EPOLLERR` branch —
`close(clientPtr->fd); continue;`, closing only that one socket while the
event loop keeps running; `write` enters the `EPOLLOUT` handler; `read`
enters the `EPOLLIN` handler (the drain loop); `skip` means no tested bit
was set and the loop moves to the next event. -/
inductive ClientDispatch where
  | closeConn : ClientDispatch
  | write : ClientDispatch
  | read : ClientDispatch
  | skip : ClientDispatch
deriving DecidableEq

/-- The client's per-event dispatch order (epoll_clnt.cpp:186-215): the
hangup/error check comes first and `continue`s after closing the socket,
so a hangup or error event never reaches the send or recv code, let alone
`fatal_error`; then the writable check, then the readable check. -/
def clientDispatch (e : EpollEvents) : ClientDispatch :=
  if e.hupOrErr then ClientDispatch.closeConn
  else if e.pollout then ClientDispatch.write
  else if e.pollin then ClientDispatch.read
  else ClientDispatch.skip

/-- Helper: the sum of a constant-valued map over `List.range`. -/
theorem sum_map_range_const (n c : Nat) :
    ((List.range n).map (fun _ => c)).sum = n * c := by
  induction n with
  | zero => simp
  | succ m ih =>
      rw [List.range_succ, List.map_append, List.sum_append]
      simp [ih, Nat.succ_mul]

/-- C2: whenever at least one required CLI option is missing, the program
prints a usage error, exits with the usage code and does no work.  The code
violates this for the responder: its guard `!portInitialized &&
!numWorkerProcessesInitialized` (epoll_svr.cpp:303, select_svr.cpp:303,
thread_svr.cpp:243) does not fire when the port is given but the worker
count is missing, even though the comment above it says "print usage and
abort if not all required arguments were provided"; the program goes on to
create the socket and fork with `numWorkerProcesses` uninitialized.  The
client's guard (epoll_clnt.cpp:476-481) does fire for any single missing
option. -/
theorem claim2_usage_guard_divergence :
    svrUsageAbort true false = false ∧
    clntUsageAbort true true true true true false = true := by
  decide

/-- C4: the workload partition gives worker 0 exactly
`total/N + total%N` clients and every other worker `total/N`, the shares
sum to `total`, and `total = 10` over `N = 3` workers yields `[4, 3, 3]`. -/
theorem claim4_worker_allocation (total N : Nat) (hN : 1 ≤ N) :
    (workerAllocation total N).sum = total ∧
    workerNumClients total N 0 = total / N + total % N ∧
    (∀ i, 1 ≤ i → i < N → workerNumClients total N i = total / N) ∧
    workerAllocation 10 3 = [4, 3, 3] := by
  refine ⟨?_, rfl, ?_, by decide⟩
  · obtain ⟨M, rfl⟩ : ∃ M, N = M + 1 := ⟨N - 1, by omega⟩
    rw [workerAllocation, List.range_succ_eq_map, List.map_cons, List.sum_cons,
      List.map_map]
    have hmap : ((List.range M).map (workerNumClients total (M + 1) ∘ (· + 1))) =
        (List.range M).map (fun _ => total / (M + 1)) := by
      apply List.map_congr_left
      intro i _
      simp [workerNumClients]
    rw [hmap, sum_map_range_const]
    have hw : workerNumClients total (M + 1) 0 = total / (M + 1) + total % (M + 1) := by
      simp [workerNumClients]
    rw [hw]
    have hdm := Nat.div_add_mod total (M + 1)
    have hq : (M + 1) * (total / (M + 1)) =
        M * (total / (M + 1)) + total / (M + 1) := by ring
    omega
  · intro i h1 _
    have : i ≠ 0 := by omega
    simp [workerNumClients, this]

/-- C4 witness: instantiation at `total = 10`, `N = 3`. -/
theorem claim4_worker_allocation_witness :
    1 ≤ 3 ∧
    ((workerAllocation 10 3).sum = 10 ∧
     workerNumClients 10 3 0 = 10 / 3 + 10 % 3 ∧
     (∀ i, 1 ≤ i → i < 3 → workerNumClients 10 3 i = 10 / 3) ∧
     workerAllocation 10 3 = [4, 3, 3]) :=
  ⟨by decide, claim4_worker_allocation 10 3 (by decide)⟩

/-- Helper: a run of positive reads only grows the echo accumulator of the
server echo loop; the loop's outcome is decided by the event that follows. -/
theorem serverEchoLoop_chunks (cs : List Nat) :
    ∀ (echoed : List Nat) (rest : List RecvEvent),
      serverEchoLoop (cs.map RecvEvent.chunk ++ rest) echoed
        = serverEchoLoop rest (echoed ++ cs) := by
  induction cs with
  | nil => intro echoed rest; simp
  | cons c cs ih =>
      intro echoed rest
      simp only [List.map_cons, List.cons_append, serverEchoLoop, List.append_eq]
      rw [ih]
      simp

/-- Helper: positive reads are echoed and skipped by the thread server's
loop. -/
theorem threadEchoLoop_chunks (cs : List Nat) :
    ∀ rest : List RecvEvent,
      threadEchoLoop (cs.map RecvEvent.chunk ++ rest) = threadEchoLoop rest := by
  induction cs with
  | nil => intro rest; simp
  | cons c cs ih =>
      intro rest
      simp only [List.map_cons, List.cons_append, threadEchoLoop, List.append_eq]
      exact ih rest

/-- Helper: the client's drain loop accumulates the chunk sizes modulo
`2^32` and then behaves as the remaining events dictate. -/
theorem clientDrain_chunks (cs : List Nat) :
    ∀ (rest : List RecvEvent) (acc : Nat), acc < UINT_MOD →
      clientDrain (cs.map RecvEvent.chunk ++ rest) acc
        = clientDrain rest ((acc + cs.sum) % UINT_MOD) := by
  induction cs with
  | nil =>
      intro rest acc hacc
      simp [Nat.mod_eq_of_lt hacc]
  | cons c cs ih =>
      intro rest acc hacc
      simp only [List.map_cons, List.cons_append, clientDrain, List.append_eq]
      rw [ih rest ((acc + c) % UINT_MOD) (Nat.mod_lt _ (by decide))]
      rw [Nat.mod_add_mod]
      congr 2
      simp [List.sum_cons]
      omega

/-- C3 counterexample: a zero-length read observed inside the client's
drain loop (epoll_clnt.cpp:239-243) falls into the branch commented
"unexpected error or closed; fatal error!" and calls
`fatal_error("recv")`, i.e. the whole worker process exits with
`EX_OSERR` — a process-level failure, not a teardown of that one
connection. -/
theorem claim3_counterexample :
    clientDrain [RecvEvent.closed] 0 = some DrainResult.fatal := rfl

/-- C3 amended: a peer-initiated close (reset, hangup, zero-length read)
causes teardown of only that connection in the read handlers of both
multiplexed servers (the socket is closed, the event loop continues) and
in the thread server (the socket is closed, only that thread exits); the
client likewise closes only the affected socket and continues its event
loop when the event reports `EPOLLHUP`/`EPOLLERR`; but a zero-length read
or a reset observed inside the client's read drain loop is treated as
fatal and terminates the worker process. -/
theorem claim3_peer_close_teardown (cs echoed : List Nat) :
    serverEchoLoop (cs.map RecvEvent.chunk ++ [RecvEvent.closed]) echoed
        = some (ServerReadOutcome.closeConn, echoed ++ cs) ∧
    serverEchoLoop (cs.map RecvEvent.chunk ++ [RecvEvent.reset]) echoed
        = some (ServerReadOutcome.closeConn, echoed ++ cs) ∧
    threadEchoLoop (cs.map RecvEvent.chunk ++ [RecvEvent.closed])
        = some ThreadReadOutcome.closeThread ∧
    threadEchoLoop (cs.map RecvEvent.chunk ++ [RecvEvent.reset])
        = some ThreadReadOutcome.closeThread ∧
    (∀ o i : Bool,
      clientDispatch { hupOrErr := true, pollout := o, pollin := i }
        = ClientDispatch.closeConn) ∧
    clientDrain (cs.map RecvEvent.chunk ++ [RecvEvent.closed]) 0
        = some DrainResult.fatal ∧
    clientDrain (cs.map RecvEvent.chunk ++ [RecvEvent.reset]) 0
        = some DrainResult.fatal := by
  refine ⟨?_, ?_, ?_, ?_, ?_, ?_, ?_⟩
  · rw [serverEchoLoop_chunks]; rfl
  · rw [serverEchoLoop_chunks]; rfl
  · rw [threadEchoLoop_chunks]; rfl
  · rw [threadEchoLoop_chunks]; rfl
  · intro o i; rfl
  · rw [clientDrain_chunks cs [RecvEvent.closed] 0 (by decide)]; rfl
  · rw [clientDrain_chunks cs [RecvEvent.reset] 0 (by decide)]; rfl

/-- C7: delivering a payload of length `L` to the client across `k`
arbitrarily sized non-empty chunks yields the same accumulated byte count
(and hence the same completion decision by the guard chain) as delivering
it in one chunk of length `L`. -/
theorem claim7_chunking_invariance (L : Nat) (cs : List Nat) (r t : Nat)
    (hL : L < UINT_MOD) (hsum : cs.sum = L) (_hpos : ∀ c ∈ cs, 0 < c) :
    readEventResult L r t (cs.map RecvEvent.chunk ++ [RecvEvent.wouldBlock]) 0
      = readEventResult L r t [RecvEvent.chunk L, RecvEvent.wouldBlock] 0 ∧
    readEventResult L r t (cs.map RecvEvent.chunk ++ [RecvEvent.wouldBlock]) 0
      = some (L, readBranch L r t L) := by
  have hdrain : clientDrain (cs.map RecvEvent.chunk ++ [RecvEvent.wouldBlock]) 0
      = some (DrainResult.ok L) := by
    rw [clientDrain_chunks cs [RecvEvent.wouldBlock] 0 (by decide)]
    simp [clientDrain, hsum, Nat.mod_eq_of_lt hL]
  have hone : clientDrain [RecvEvent.chunk L, RecvEvent.wouldBlock] 0
      = some (DrainResult.ok L) := by
    simp [clientDrain, Nat.mod_eq_of_lt hL]
  exact ⟨by simp [readEventResult, hdrain, hone],
         by simp [readEventResult, hdrain]⟩

/-- C7 witness: payload length 4 delivered as chunks `[1, 3]`. -/
theorem claim7_chunking_invariance_witness :
    (4 < UINT_MOD ∧ ([1, 3] : List Nat).sum = 4 ∧
      (∀ c ∈ ([1, 3] : List Nat), 0 < c)) ∧
    (readEventResult 4 2 1 ([1, 3].map RecvEvent.chunk ++ [RecvEvent.wouldBlock]) 0
        = readEventResult 4 2 1 [RecvEvent.chunk 4, RecvEvent.wouldBlock] 0 ∧
     readEventResult 4 2 1 ([1, 3].map RecvEvent.chunk ++ [RecvEvent.wouldBlock]) 0
        = some (4, readBranch 4 2 1 4)) :=
  ⟨⟨by decide, by decide, by decide⟩,
   claim7_chunking_invariance 4 [1, 3] 2 1 (by decide) (by decide) (by decide)⟩

/-- Helper: unfolding one step of `cycleRun`. -/
theorem cycleRun_succ (L r fuel : Nat) (st : CycleState) :
    cycleRun L r (fuel + 1) st =
      match cycleStep L r st with
      | none => none
      | some (Sum.inr sent) => some sent
      | some (Sum.inl st') => cycleRun L r fuel st' := rfl

/-- Helper: one write/read round of a client cycle.  From a slot that has
already transmitted `t` times and is waiting to write with no bytes of the
current round received, two event-loop dispatches either re-enter the same
shape with `t + 1` transmits (when `t + 1 < r`) or complete the cycle with
`t + 1` sends. -/
theorem cycleRun_round (L r fuel t : Nat) (hLlt : L < UINT_MOD)
    (htM : t + 1 < UINT_MOD) :
    cycleRun L r (fuel + 1 + 1)
      { timesTransmitted := t, bytesReceived := 0
        interest := Interest.writeWait, sent := t } =
      if t + 1 < r then
        cycleRun L r fuel
          { timesTransmitted := t + 1, bytesReceived := 0
            interest := Interest.writeWait, sent := t + 1 }
      else some (t + 1) := by
  rw [cycleRun_succ]
  have hwrite : cycleStep L r
      { timesTransmitted := t, bytesReceived := 0
        interest := Interest.writeWait, sent := t } =
      some (Sum.inl { timesTransmitted := (t + 1) % UINT_MOD, bytesReceived := 0
                      interest := Interest.readWait, sent := t + 1 }) := rfl
  rw [hwrite, Nat.mod_eq_of_lt htM]
  change cycleRun L r (fuel + 1)
      { timesTransmitted := t + 1, bytesReceived := 0
        interest := Interest.readWait, sent := t + 1 } = _
  rw [cycleRun_succ]
  have hb : (0 + L) % UINT_MOD = L := by
    rw [Nat.zero_add]; exact Nat.mod_eq_of_lt hLlt
  by_cases hlt : t + 1 < r
  · have hread : cycleStep L r
        { timesTransmitted := t + 1, bytesReceived := 0
          interest := Interest.readWait, sent := t + 1 } =
        some (Sum.inl { timesTransmitted := t + 1, bytesReceived := 0
                        interest := Interest.writeWait, sent := t + 1 }) := by
      simp only [cycleStep, hb, readBranch]
      rw [if_pos ⟨Nat.le_refl L, hlt⟩]
    rw [hread, if_pos hlt]
  · have hread : cycleStep L r
        { timesTransmitted := t + 1, bytesReceived := 0
          interest := Interest.readWait, sent := t + 1 } =
        some (Sum.inr (t + 1)) := by
      simp only [cycleStep, hb, readBranch]
      rw [if_neg (fun h => hlt h.2), if_pos ⟨Nat.le_refl L, Nat.le_of_not_lt hlt⟩]
    rw [hread, if_neg hlt]

/-- Helper: loop invariant of one client cycle.  From a slot that has
already transmitted `t` times, is waiting to write with no bytes of the
current round received, and will complete after `t + d + 1` transmits in
total, the cycle ends reporting exactly `r` sends. -/
theorem cycleRun_loop (L r : Nat) (hLlt : L < UINT_MOD) (hr : r < UINT_MOD) :
    ∀ d t, t + d + 1 = r →
      cycleRun L r (2 * (d + 1) + 1)
        { timesTransmitted := t, bytesReceived := 0
          interest := Interest.writeWait, sent := t } = some r := by
  intro d
  induction d with
  | zero =>
      intro t ht
      have htM : t + 1 < UINT_MOD := by omega
      have hfuel : 2 * (0 + 1) + 1 = 1 + 1 + 1 := by norm_num
      rw [hfuel, cycleRun_round L r 1 t hLlt htM]
      rw [if_neg (by omega)]
      exact congrArg some (by omega)
  | succ d ih =>
      intro t ht
      have htM : t + 1 < UINT_MOD := by omega
      have hfuel : 2 * (d + 1 + 1) + 1 = (2 * (d + 1) + 1) + 1 + 1 := by ring
      rw [hfuel, cycleRun_round L r (2 * (d + 1) + 1) t hLlt htM]
      rw [if_pos (by omega)]
      exact ih (t + 1) (by omega)

/-- C1 counterexample: with payload length 4 ("PING") and retransmit
budget `-r 2`, one full cycle of a client slot performs exactly 2 sends
(each echoed back once), not 1 + 2 = 3: the guard `timesTransmitted <
timesToRetransmit` (epoll_clnt.cpp:248-249) counts the initial transmit
against the budget. -/
theorem claim1_counterexample :
    cycleRun 4 2 7 freshCycle = some 2 ∧
    cycleRun 4 2 7 freshCycle ≠ some (1 + 2) := by
  refine ⟨by decide, by decide⟩

/-- C1 amended: one full cycle of a client slot with retransmit budget `r`
transmits the payload exactly `max r 1` times — `r` times when `r ≥ 1`
(the budget is the total number of sends, the `-r` option being "number of
times each client should send their data", epoll_clnt.cpp:352-353), and
once when `r = 0` — before closing the socket and recycling the slot; in
particular with budget 2 the payload is sent and echoed exactly twice per
cycle. -/
theorem claim1_cycle_send_count (L r : Nat) (_hL : 0 < L)
    (hLlt : L < UINT_MOD) (hr : r < UINT_MOD) :
    cycleRun L r (2 * max r 1 + 1) freshCycle = some (max r 1) := by
  have h1M : (0 + 1 : Nat) < UINT_MOD := by decide
  cases r with
  | zero =>
      have hmax : max 0 1 = 1 := by decide
      rw [hmax]
      have hfuel : 2 * 1 + 1 = 1 + 1 + 1 := by norm_num
      rw [hfuel]
      have := cycleRun_round L 0 1 0 hLlt h1M
      rw [freshCycle, this, if_neg (by omega)]
  | succ r' =>
      have hmax : max (r' + 1) 1 = r' + 1 := by omega
      rw [hmax]
      have := cycleRun_loop L (r' + 1) hLlt hr r' 0 (by omega)
      rw [freshCycle]
      exact this

/-- C1 witness: instantiation at payload length 4, budget 2. -/
theorem claim1_cycle_send_count_witness :
    0 < 4 ∧ 4 < UINT_MOD ∧ 2 < UINT_MOD ∧
    cycleRun 4 2 (2 * max 2 1 + 1) freshCycle = some (max 2 1) :=
  ⟨by decide, by decide, by decide,
   claim1_cycle_send_count 4 2 (by decide) (by decide) (by decide)⟩

/-- C10: the three guarded cases after the client's drain loop are
exhaustive for all values of `bytesReceived` and `timesTransmitted`, so the
trailing `fatal_error("should not reach this point in code!")` branch
(epoll_clnt.cpp:307) is unreachable. -/
theorem claim10_fatal_branch_unreachable (L r t b : Nat) :
    readBranch L r t b ≠ ReadOutcome.unreachable := by
  by_cases h1 : b ≥ L ∧ t < r
  · simp [readBranch, h1]
  · by_cases h2 : b ≥ L ∧ t ≥ r
    · have hnt : ¬ t < r := by omega
      simp [readBranch, h1, h2, hnt]
    · have h3 : b < L := by omega
      simp [readBranch, h1, h2, h3]

/-- C6: `decrement_session_count` is exactly the statement sequence
`decrementTrace`: its first two operations are the single decrement of
`sessionCount` followed — strictly after — by the single increment of
`totalSessionCount`, and each of the remaining operations (the min/max/avg
updates) changes neither counter. -/
theorem claim6_decrement_order (x : ℚ) (s : Stats) :
    (decrementTrace x).foldl applyCounterOp s = decrement_session_count x s ∧
    (decrementTrace x).take 2 = [CounterOp.decSession, CounterOp.incTotal] ∧
    (decrementTrace x).drop 2 =
      [CounterOp.updateMin x, CounterOp.updateMax x, CounterOp.updateAvg x] ∧
    (∀ t : Stats,
      (applyCounterOp t (CounterOp.updateMin x)).sessionCount = t.sessionCount ∧
      (applyCounterOp t (CounterOp.updateMin x)).totalSessionCount = t.totalSessionCount ∧
      (applyCounterOp t (CounterOp.updateMax x)).sessionCount = t.sessionCount ∧
      (applyCounterOp t (CounterOp.updateMax x)).totalSessionCount = t.totalSessionCount ∧
      (applyCounterOp t (CounterOp.updateAvg x)).sessionCount = t.sessionCount ∧
      (applyCounterOp t (CounterOp.updateAvg x)).totalSessionCount = t.totalSessionCount) := by
  refine ⟨?_, rfl, rfl, fun _ => ⟨rfl, rfl, rfl, rfl, rfl, rfl⟩⟩
  cases s
  simp only [decrementTrace, List.foldl_cons, List.foldl_nil, applyCounterOp,
    decrement_session_count]

/-- Helper: folding service times folds `min` over `minServiceTime`. -/
theorem foldServiceTimes_min (times : List ℚ) :
    ∀ s : Stats, (foldServiceTimes times s).minServiceTime
      = times.foldl min s.minServiceTime := by
  induction times with
  | nil => intro s; rfl
  | cons t ts ih =>
      intro s
      show (foldServiceTimes ts (decrement_session_count t s)).minServiceTime = _
      rw [ih, List.foldl_cons]
      congr 1
      simp only [decrement_session_count]
      rcases le_or_lt s.minServiceTime t with h | h
      · rw [if_neg (not_lt.mpr h), min_eq_left h]
      · rw [if_pos h, min_eq_right h.le]

/-- Helper: folding service times folds `max` over `maxServiceTime`. -/
theorem foldServiceTimes_max (times : List ℚ) :
    ∀ s : Stats, (foldServiceTimes times s).maxServiceTime
      = times.foldl max s.maxServiceTime := by
  induction times with
  | nil => intro s; rfl
  | cons t ts ih =>
      intro s
      show (foldServiceTimes ts (decrement_session_count t s)).maxServiceTime = _
      rw [ih, List.foldl_cons]
      congr 1
      simp only [decrement_session_count]
      rcases le_or_lt t s.maxServiceTime with h | h
      · rw [if_neg (not_lt.mpr h), max_eq_left h]
      · rw [if_pos h, max_eq_right h.le]

/-- Helper: folding service times counts them into `totalSessionCount`. -/
theorem foldServiceTimes_total (times : List ℚ) :
    ∀ s : Stats, s.totalSessionCount + times.length < ULONG_MOD →
      (foldServiceTimes times s).totalSessionCount
        = s.totalSessionCount + times.length := by
  induction times with
  | nil => intro s _; rfl
  | cons t ts ih =>
      intro s h
      simp only [List.length_cons] at h
      have htot : (decrement_session_count t s).totalSessionCount
          = s.totalSessionCount + 1 := by
        simp only [decrement_session_count]
        exact Nat.mod_eq_of_lt (by omega)
      show (foldServiceTimes ts (decrement_session_count t s)).totalSessionCount = _
      rw [ih (decrement_session_count t s) (by rw [htot]; omega), htot]
      simp only [List.length_cons]
      omega

/-- Helper: the running mean identity, in product form — after folding,
`avgServiceTime` times the final session count equals the initial total
service time plus the sum of the folded times. -/
theorem foldServiceTimes_avg (times : List ℚ) :
    ∀ s : Stats, s.totalSessionCount + times.length < ULONG_MOD →
      (foldServiceTimes times s).avgServiceTime
          * ((s.totalSessionCount + times.length : Nat) : ℚ)
        = s.avgServiceTime * (s.totalSessionCount : ℚ) + times.sum := by
  induction times with
  | nil => intro s _; simp [foldServiceTimes]
  | cons t ts ih =>
      intro s h
      simp only [List.length_cons] at h
      have hM1 : 1 ≤ ULONG_MOD := by decide
      have hT1 : s.totalSessionCount + 1 < ULONG_MOD := by omega
      have htot : (decrement_session_count t s).totalSessionCount
          = s.totalSessionCount + 1 := by
        simp only [decrement_session_count]
        exact Nat.mod_eq_of_lt hT1
      have hback : (s.totalSessionCount + 1 + (ULONG_MOD - 1)) % ULONG_MOD
          = s.totalSessionCount := by
        have he : s.totalSessionCount + 1 + (ULONG_MOD - 1)
            = s.totalSessionCount + ULONG_MOD := by omega
        rw [he, Nat.add_mod_right]
        exact Nat.mod_eq_of_lt (by omega)
      have havg : (decrement_session_count t s).avgServiceTime
          = (s.avgServiceTime * (s.totalSessionCount : ℚ) + t)
              / ((s.totalSessionCount + 1 : Nat) : ℚ) := by
        simp only [decrement_session_count]
        rw [Nat.mod_eq_of_lt hT1, hback]
      have hih := ih (decrement_session_count t s) (by rw [htot]; omega)
      show (foldServiceTimes ts (decrement_session_count t s)).avgServiceTime
          * ((s.totalSessionCount + (t :: ts).length : Nat) : ℚ) = _
      have hlen : s.totalSessionCount + (t :: ts).length
          = (decrement_session_count t s).totalSessionCount + ts.length := by
        rw [htot]; simp only [List.length_cons]; omega
      rw [hlen, hih, htot, havg]
      have hT0 : ((s.totalSessionCount + 1 : Nat) : ℚ) ≠ 0 := by
        exact_mod_cast Nat.succ_ne_zero s.totalSessionCount
      rw [div_mul_cancel₀ _ hT0]
      simp only [List.sum_cons]
      ring

/-- Helper: a left fold of `min` is a lower bound of its start and of
every element of the list. -/
theorem foldl_min_le (l : List ℚ) :
    ∀ a : ℚ, l.foldl min a ≤ a ∧ ∀ t ∈ l, l.foldl min a ≤ t := by
  induction l with
  | nil => intro a; exact ⟨le_refl a, by simp⟩
  | cons t ts ih =>
      intro a
      rw [List.foldl_cons]
      obtain ⟨h1, h2⟩ := ih (min a t)
      refine ⟨h1.trans (min_le_left a t), ?_⟩
      intro u hu
      rcases List.mem_cons.mp hu with rfl | hu
      · exact h1.trans (min_le_right a u)
      · exact h2 u hu

/-- Helper: a left fold of `min` is either its start or a list element. -/
theorem foldl_min_mem (l : List ℚ) :
    ∀ a : ℚ, l.foldl min a = a ∨ l.foldl min a ∈ l := by
  induction l with
  | nil => intro a; exact Or.inl rfl
  | cons t ts ih =>
      intro a
      rw [List.foldl_cons]
      rcases ih (min a t) with h | h
      · rw [h]
        rcases le_total a t with hat | hta
        · exact Or.inl (min_eq_left hat)
        · exact Or.inr (by rw [min_eq_right hta]; exact List.mem_cons_self t ts)
      · exact Or.inr (List.mem_cons_of_mem t h)

/-- Helper: a left fold of `max` is an upper bound of its start and of
every element of the list. -/
theorem foldl_max_ge (l : List ℚ) :
    ∀ a : ℚ, a ≤ l.foldl max a ∧ ∀ t ∈ l, t ≤ l.foldl max a := by
  induction l with
  | nil => intro a; exact ⟨le_refl a, by simp⟩
  | cons t ts ih =>
      intro a
      rw [List.foldl_cons]
      obtain ⟨h1, h2⟩ := ih (max a t)
      refine ⟨(le_max_left a t).trans h1, ?_⟩
      intro u hu
      rcases List.mem_cons.mp hu with rfl | hu
      · exact (le_max_right a u).trans h1
      · exact h2 u hu

/-- Helper: a left fold of `max` is either its start or a list element. -/
theorem foldl_max_mem (l : List ℚ) :
    ∀ a : ℚ, l.foldl max a = a ∨ l.foldl max a ∈ l := by
  induction l with
  | nil => intro a; exact Or.inl rfl
  | cons t ts ih =>
      intro a
      rw [List.foldl_cons]
      rcases ih (max a t) with h | h
      · rw [h]
        rcases le_total t a with hta | hat
        · exact Or.inl (max_eq_left hta)
        · exact Or.inr (by rw [max_eq_right hat]; exact List.mem_cons_self t ts)
      · exact Or.inr (List.mem_cons_of_mem t h)

/-- C5: folding any nonempty sequence of service times (each nonnegative
and at most `DBL_MAX`) into the aggregate statistics one at a time leaves
`minServiceTime` equal to the minimum of the sequence, `maxServiceTime`
equal to the maximum, and `avgServiceTime` equal to the arithmetic mean,
computed as an incremental running mean with no history retained. -/
theorem claim5_aggregate_statistics (times : List ℚ) (hne : times ≠ [])
    (hlen : times.length < ULONG_MOD)
    (hbounds : ∀ t ∈ times, 0 ≤ t ∧ t ≤ dblMax) :
    ((foldServiceTimes times initStats).minServiceTime ∈ times ∧
      ∀ t ∈ times, (foldServiceTimes times initStats).minServiceTime ≤ t) ∧
    ((foldServiceTimes times initStats).maxServiceTime ∈ times ∧
      ∀ t ∈ times, t ≤ (foldServiceTimes times initStats).maxServiceTime) ∧
    (foldServiceTimes times initStats).avgServiceTime
        = times.sum / ((times.length : Nat) : ℚ) := by
  obtain ⟨u, us, rfl⟩ : ∃ u us, times = u :: us := by
    cases times with
    | nil => exact absurd rfl hne
    | cons u us => exact ⟨u, us, rfl⟩
  refine ⟨?_, ?_, ?_⟩
  · rw [foldServiceTimes_min]
    obtain ⟨h1, h2⟩ := foldl_min_le (u :: us) initStats.minServiceTime
    refine ⟨?_, h2⟩
    rcases foldl_min_mem (u :: us) initStats.minServiceTime with h | h
    · have hu : u ∈ u :: us := List.mem_cons_self u us
      have heq : (u :: us).foldl min initStats.minServiceTime = u := by
        refine le_antisymm (h2 u hu) ?_
        rw [h]
        exact (hbounds u hu).2
      rw [heq]; exact hu
    · exact h
  · rw [foldServiceTimes_max]
    obtain ⟨h1, h2⟩ := foldl_max_ge (u :: us) initStats.maxServiceTime
    refine ⟨?_, h2⟩
    rcases foldl_max_mem (u :: us) initStats.maxServiceTime with h | h
    · have hu : u ∈ u :: us := List.mem_cons_self u us
      have heq : (u :: us).foldl max initStats.maxServiceTime = u := by
        refine le_antisymm ?_ (h2 u hu)
        rw [h]
        exact (hbounds u hu).1
      rw [heq]; exact hu
    · exact h
  · have hmul := foldServiceTimes_avg (u :: us) initStats
      (by simpa [initStats] using hlen)
    have hz : initStats.avgServiceTime * ((initStats.totalSessionCount : Nat) : ℚ)
        = 0 := by simp [initStats]
    rw [hz] at hmul
    have hlz : (((u :: us).length : Nat) : ℚ) ≠ 0 :=
      Nat.cast_ne_zero.mpr (Nat.succ_ne_zero us.length)
    have hcast : ((initStats.totalSessionCount + (u :: us).length : Nat) : ℚ)
        = (((u :: us).length : Nat) : ℚ) := by
      norm_num [initStats]
    rw [hcast] at hmul
    rw [eq_div_iff hlz, hmul, zero_add]

/-- C5 witness: folding `[3, 7, 5]` gives min 3, max 7, average 5. -/
theorem claim5_aggregate_statistics_witness :
    (([3, 7, 5] : List ℚ) ≠ [] ∧ ([3, 7, 5] : List ℚ).length < ULONG_MOD ∧
      (∀ t ∈ ([3, 7, 5] : List ℚ), 0 ≤ t ∧ t ≤ dblMax)) ∧
    (((foldServiceTimes [3, 7, 5] initStats).minServiceTime ∈ ([3, 7, 5] : List ℚ) ∧
       ∀ t ∈ ([3, 7, 5] : List ℚ),
         (foldServiceTimes [3, 7, 5] initStats).minServiceTime ≤ t) ∧
     ((foldServiceTimes [3, 7, 5] initStats).maxServiceTime ∈ ([3, 7, 5] : List ℚ) ∧
       ∀ t ∈ ([3, 7, 5] : List ℚ),
         t ≤ (foldServiceTimes [3, 7, 5] initStats).maxServiceTime) ∧
     (foldServiceTimes [3, 7, 5] initStats).avgServiceTime
        = ([3, 7, 5] : List ℚ).sum / ((([3, 7, 5] : List ℚ).length : Nat) : ℚ)) :=
  ⟨⟨by decide, by norm_num [ULONG_MOD], by norm_num [dblMax]⟩,
   claim5_aggregate_statistics [3, 7, 5] (by decide) (by norm_num [ULONG_MOD])
     (by norm_num [dblMax])⟩

/-- Helper: a run of session-counter updates containing no decrement
leaves `totalSessionCount` and the three service-time aggregates
untouched. -/
theorem runOps_no_dec (ops : List SessionOp) :
    ∀ s : Stats, (∀ x : ℚ, SessionOp.dec x ∉ ops) →
      (ops.foldl applySessionOp s).totalSessionCount = s.totalSessionCount ∧
      (ops.foldl applySessionOp s).minServiceTime = s.minServiceTime ∧
      (ops.foldl applySessionOp s).maxServiceTime = s.maxServiceTime ∧
      (ops.foldl applySessionOp s).avgServiceTime = s.avgServiceTime := by
  induction ops with
  | nil => intro s _; exact ⟨rfl, rfl, rfl, rfl⟩
  | cons op rest ih =>
      intro s hno
      cases op with
      | inc =>
          rw [List.foldl_cons]
          obtain ⟨h1, h2, h3, h4⟩ := ih (applySessionOp s SessionOp.inc)
            (fun x hx => hno x (List.mem_cons_of_mem _ hx))
          exact ⟨h1.trans rfl, h2.trans rfl, h3.trans rfl, h4.trans rfl⟩
      | dec x => exact absurd (List.mem_cons_self _ _) (hno x)

/-- C8 counterexample: for any elapsed runtime below 1000 ms the rate
divisor `totalRuntime/1000L` (epoll_clnt.cpp:125) is the integer 0, so
the printed sessions-per-second value is computed by dividing by zero
(`0.0/0` in IEEE arithmetic, NaN) — e.g. at a runtime of 500 ms. -/
theorem claim8_counterexample : sessionsRateDivisor 500 = 0 := rfl

/-- C8 amended: when the stop signal arrives with zero completed sessions
(no `decrement_session_count` call ever ran, whatever increments
happened), the printed aggregate shows `totalSessionCount = 0` and the
defined sentinels `minServiceTime = DBL_MAX`, `maxServiceTime = 0`,
`avgServiceTime = 0`; the sessions-per-second divisor `totalRuntime/1000`
is nonzero only for elapsed runtimes of at least 1000 ms — for shorter
runtimes the rate computation does divide by zero. -/
theorem claim8_zero_sessions_print (ops : List SessionOp) (totalRuntime : Nat)
    (hnodec : ∀ x : ℚ, SessionOp.dec x ∉ ops) (hrt : 1000 ≤ totalRuntime) :
    (runOps ops).totalSessionCount = 0 ∧
    (runOps ops).minServiceTime = dblMax ∧
    (runOps ops).maxServiceTime = 0 ∧
    (runOps ops).avgServiceTime = 0 ∧
    sessionsRateDivisor totalRuntime ≠ 0 := by
  obtain ⟨h1, h2, h3, h4⟩ := runOps_no_dec ops initStats hnodec
  refine ⟨h1.trans rfl, h2.trans rfl, h3.trans rfl, h4.trans rfl, ?_⟩
  have hpos : 1 ≤ totalRuntime / 1000 :=
    (Nat.one_le_div_iff (by norm_num)).mpr hrt
  simp only [sessionsRateDivisor]
  omega

/-- C8 witness: one increment, runtime exactly 1000 ms. -/
theorem claim8_zero_sessions_print_witness :
    ((∀ x : ℚ, SessionOp.dec x ∉ [SessionOp.inc]) ∧ 1000 ≤ 1000) ∧
    ((runOps [SessionOp.inc]).totalSessionCount = 0 ∧
     (runOps [SessionOp.inc]).minServiceTime = dblMax ∧
     (runOps [SessionOp.inc]).maxServiceTime = 0 ∧
     (runOps [SessionOp.inc]).avgServiceTime = 0 ∧
     sessionsRateDivisor 1000 ≠ 0) :=
  ⟨⟨fun x h => SessionOp.noConfusion (List.mem_singleton.mp h), by decide⟩,
   claim8_zero_sessions_print [SessionOp.inc] 1000
     (fun x h => SessionOp.noConfusion (List.mem_singleton.mp h)) (by decide)⟩

/-- Helper: the `if peak < c then c else peak` update is `max`. -/
theorem if_lt_max (a b : Nat) : (if a < b then b else a) = max a b := by
  rcases Nat.lt_or_ge a b with h | h
  · rw [if_pos h, max_eq_right h.le]
  · rw [if_neg (Nat.not_lt.mpr h), max_eq_left h]

/-- Helper: `maxList` on a cons. -/
theorem maxList_cons (a : Nat) (l : List Nat) :
    maxList (a :: l) = max a (maxList l) := rfl

/-- Helper: running balanced session-counter updates keeps
`peakSessionCount` equal to the running maximum of `sessionCount` (taken
together with its starting peak) and never below `sessionCount`. -/
theorem peak_fold_spec (ops : List SessionOp) :
    ∀ s : Stats, balancedFrom s ops = true →
      s.sessionCount + ops.length < ULONG_MOD →
      s.sessionCount ≤ s.peakSessionCount →
      (ops.foldl applySessionOp s).peakSessionCount
          = max s.peakSessionCount (maxList (sessionTrace s ops)) ∧
      (ops.foldl applySessionOp s).sessionCount
          ≤ (ops.foldl applySessionOp s).peakSessionCount := by
  induction ops with
  | nil =>
      intro s _ _ hinv
      exact ⟨by simp [maxList, sessionTrace], hinv⟩
  | cons op rest ih =>
      intro s hbal hlen hinv
      simp only [List.length_cons] at hlen
      cases op with
      | inc =>
          have hcM : s.sessionCount + 1 < ULONG_MOD := by omega
          have hc : (applySessionOp s SessionOp.inc).sessionCount
              = s.sessionCount + 1 := by
            simp only [applySessionOp, increment_session_count]
            exact Nat.mod_eq_of_lt hcM
          have hp : (applySessionOp s SessionOp.inc).peakSessionCount
              = max s.peakSessionCount (s.sessionCount + 1) := by
            simp only [applySessionOp, increment_session_count]
            rw [Nat.mod_eq_of_lt hcM]
            exact if_lt_max _ _
          have hbal' : balancedFrom (applySessionOp s SessionOp.inc) rest = true := by
            simpa only [balancedFrom] using hbal
          obtain ⟨ihp, ihs⟩ := ih (applySessionOp s SessionOp.inc) hbal'
            (by rw [hc]; omega)
            (by rw [hc, hp]; exact le_max_right _ _)
          rw [List.foldl_cons]
          refine ⟨?_, ihs⟩
          rw [ihp, hp]
          have htr : sessionTrace s (SessionOp.inc :: rest)
              = (applySessionOp s SessionOp.inc).sessionCount ::
                sessionTrace (applySessionOp s SessionOp.inc) rest := rfl
          rw [htr, maxList_cons, hc]
          exact max_assoc _ _ _
      | dec x =>
          have hparts : 0 < s.sessionCount ∧
              balancedFrom (applySessionOp s (SessionOp.dec x)) rest = true := by
            simpa only [balancedFrom, Bool.and_eq_true, decide_eq_true_eq] using hbal
          have hM1 : 1 ≤ ULONG_MOD := by decide
          have hc : (applySessionOp s (SessionOp.dec x)).sessionCount
              = s.sessionCount - 1 := by
            simp only [applySessionOp, decrement_session_count]
            have he : s.sessionCount + (ULONG_MOD - 1)
                = (s.sessionCount - 1) + ULONG_MOD := by omega
            rw [he, Nat.add_mod_right]
            exact Nat.mod_eq_of_lt (by omega)
          have hp : (applySessionOp s (SessionOp.dec x)).peakSessionCount
              = s.peakSessionCount := rfl
          obtain ⟨ihp, ihs⟩ := ih (applySessionOp s (SessionOp.dec x)) hparts.2
            (by rw [hc]; omega)
            (by rw [hc, hp]; omega)
          rw [List.foldl_cons]
          refine ⟨?_, ihs⟩
          rw [ihp, hp]
          have htr : sessionTrace s (SessionOp.dec x :: rest)
              = (applySessionOp s (SessionOp.dec x)).sessionCount ::
                sessionTrace (applySessionOp s (SessionOp.dec x)) rest := rfl
          rw [htr, maxList_cons, hc]
          rw [← max_assoc, max_eq_left (show s.sessionCount - 1 ≤ s.peakSessionCount by omega)]

/-- C9 counterexample: in the interleaving consisting of a single
`decrement_session_count` call from the initial zero state, the `unsigned
long` `sessionCount--` wraps around to `2^64 - 1` while
`peakSessionCount` stays 0, so `peakSessionCount ≥ sessionCount` fails
(and `peakSessionCount` is not the maximum value `sessionCount` has
attained). -/
theorem claim9_counterexample :
    ¬ ((runOps [SessionOp.dec 0]).sessionCount
        ≤ (runOps [SessionOp.dec 0]).peakSessionCount) := by
  decide

/-- C9 amended: after any sequence of `increment_session_count` /
`decrement_session_count` calls from the initial zero state in which each
decrement happens while `sessionCount > 0` (as the program's own call
sites guarantee), `peakSessionCount` equals the maximum value
`sessionCount` has ever attained and is never below `sessionCount`. -/
theorem claim9_peak_invariant (ops : List SessionOp)
    (hbal : balancedFrom initStats ops = true)
    (hlen : ops.length < ULONG_MOD) :
    (runOps ops).peakSessionCount = maxList (sessionTrace initStats ops) ∧
    (runOps ops).sessionCount ≤ (runOps ops).peakSessionCount := by
  obtain ⟨h1, h2⟩ := peak_fold_spec ops initStats hbal
    (by simpa [initStats] using hlen) (le_refl 0)
  refine ⟨?_, h2⟩
  rw [show runOps ops = ops.foldl applySessionOp initStats from rfl, h1]
  rw [show initStats.peakSessionCount = 0 from rfl]
  exact Nat.zero_max _

/-- C9 witness: the balanced interleaving `[inc, inc, dec 3, inc]`. -/
theorem claim9_peak_invariant_witness :
    (balancedFrom initStats
        [SessionOp.inc, SessionOp.inc, SessionOp.dec 3, SessionOp.inc] = true ∧
      ([SessionOp.inc, SessionOp.inc, SessionOp.dec 3, SessionOp.inc] :
        List SessionOp).length < ULONG_MOD) ∧
    ((runOps [SessionOp.inc, SessionOp.inc, SessionOp.dec 3, SessionOp.inc]).peakSessionCount
        = maxList (sessionTrace initStats
            [SessionOp.inc, SessionOp.inc, SessionOp.dec 3, SessionOp.inc]) ∧
     (runOps [SessionOp.inc, SessionOp.inc, SessionOp.dec 3, SessionOp.inc]).sessionCount
        ≤ (runOps [SessionOp.inc, SessionOp.inc, SessionOp.dec 3, SessionOp.inc]).peakSessionCount) :=
  ⟨⟨by decide, by decide⟩,
   claim9_peak_invariant [SessionOp.inc, SessionOp.inc, SessionOp.dec 3, SessionOp.inc]
     (by decide) (by decide)⟩
